import Mathlib

/-!
Verification of the `RiitimusEmbeddableAudioPlayer` widget
(`src/riitimus-embeddable-audio-player.js`, richest variant, lines 25–463).

The two classes are embedded shallowly:

* `EAElement` models `RiitimusEmbeddableAudioPlayerElement`, restricted to the
  event-listener state the claims are about.  The underlying
  `htmlElement`'s listener set is modelled with DOM semantics:
  `addEventListener` ignores a duplicate (event, callback) pair,
  `removeEventListener` of an absent pair is a no-op, and dispatching an event
  invokes every callback registered for it.  Callbacks are identified by a
  numeric identity (JS function identity).  The `children` map, attributes and
  text content play no role in any claim and are not modelled.

* `Player` models `RiitimusEmbeddableAudioPlayer`'s controller state
  (`_options`, `_currentAudio`, `_currentAudioIndex`, `_lastAudioVolume`) and
  its methods.  JS numbers are modelled exactly over `ℚ` (indices over `ℤ`,
  matching JS `null` coercion to 0 in `null + 1` / `null - 1`).  Methods that
  dereference a possibly-null `_currentAudio` (or a null `_lastAudioVolume`)
  return `Option Player`, `none` standing for the TypeError the JS code throws
  there.  `setCurrentAudio` returns `Except Player Player`; the `error` state
  is the controller state at the point where `audioSrcFromSrcs.audio` throws
  on an undefined entry, so that the partial side effects of a failing call
  are visible.
-/

namespace Riitimus

/-- One entry of `options.srcs`: either a bare audio-source string or a
structure with an `audio` field and an optional `coverImage` field
(`RiitimusEmbeddableAudioPlayerSrcStructure`). -/
inductive Track where
  | bare (src : String)
  | structured (audio : String) (coverImage : Option String)
deriving DecidableEq, Repr

/-- Resolution of a track entry to an audio source (setCurrentAudio lines
197–198): the string itself when the entry is a string, otherwise its
`.audio` field. -/
def Track.resolveSrc : Track → String
  | .bare s => s
  | .structured a _ => a

/-- JS truthiness of `this._options.srcs[i]` as tested by the skip guards:
`undefined` (out of range, modelled as `none`) and the empty string are
falsy; every other string and every object is truthy. -/
def entryTruthy : Option Track → Bool
  | none => false
  | some (.bare s) => s != ""
  | some (.structured _ _) => true

/-- Model of an `HTMLAudioElement` playback handle: bound source, volume in
[0,1] scale, paused flag and playback position. -/
structure Audio where
  src : String
  volume : ℚ
  paused : Bool
  currentTime : ℚ
deriving DecidableEq, Repr

/-- `new Audio(src)`: a fresh handle bound to `src`, paused, at time 0, with
the browser default volume 1. -/
def newAudio (src : String) : Audio :=
  { src := src, volume := 1, paused := true, currentTime := 0 }

/-- The options passed to the constructor: `autoplay` (absent modelled as
`false`, its default) and the `srcs` track list. -/
structure PlayerOptions where
  autoplay : Bool
  srcs : List Track
deriving DecidableEq, Repr

/-- Controller state of `RiitimusEmbeddableAudioPlayer` (constructor lines
124–168): the stored options, `_currentAudio`, `_currentAudioIndex` and
`_lastAudioVolume` (each `null` initially, modelled as `none`). -/
structure Player where
  options : PlayerOptions
  currentAudio : Option Audio
  currentAudioIndex : Option Int
  lastAudioVolume : Option ℚ
deriving DecidableEq, Repr

/-- The constructor: all playback state starts `null`. -/
def mkPlayer (options : PlayerOptions) : Player :=
  { options := options, currentAudio := none, currentAudioIndex := none,
    lastAudioVolume := none }

/-- Array indexing `srcs[index]` with a JS number index: a negative or
out-of-range index yields `undefined` (`none`). -/
def srcsGet (srcs : List Track) (index : Int) : Option Track :=
  if 0 ≤ index then srcs[index.toNat]? else none

/-- `_setAudioVolume(volume)` (lines 227–231):
`this._currentAudio.volume = volume / 100`.  `none` when `_currentAudio` is
null (TypeError). -/
def setAudioVolume (p : Player) (volume : ℚ) : Option Player :=
  p.currentAudio.map fun a =>
    { p with currentAudio := some { a with volume := volume / 100 } }

/-- `_setAudioCurrentTime(second)` (lines 237–241):
`this._currentAudio.currentTime = second`. -/
def setAudioCurrentTime (p : Player) (second : ℚ) : Option Player :=
  p.currentAudio.map fun a =>
    { p with currentAudio := some { a with currentTime := second } }

/-- `_playAudio()` (lines 260–264): `this._currentAudio.play()`. -/
def playAudio (p : Player) : Option Player :=
  p.currentAudio.map fun a =>
    { p with currentAudio := some { a with paused := false } }

/-- `_pauseAudio()` (lines 269–273): `this._currentAudio.pause()`. -/
def pauseAudio (p : Player) : Option Player :=
  p.currentAudio.map fun a =>
    { p with currentAudio := some { a with paused := true } }

/-- `_mute()` (lines 243–246): store `this._currentAudio.volume * 100` into
`_lastAudioVolume`, then `_setAudioVolume(0)`. -/
def mute (p : Player) : Option Player :=
  p.currentAudio.bind fun a =>
    setAudioVolume { p with lastAudioVolume := some (a.volume * 100) } 0

/-- `_unmute()` (lines 248–250): `_setAudioVolume(this._lastAudioVolume)`.
When `_lastAudioVolume` is null the JS call sets the handle volume to 0
(`null / 100` is 0) and then throws a TypeError on `null.toString()`; that
path is modelled as `none`. -/
def unmute (p : Player) : Option Player :=
  match p.lastAudioVolume with
  | some w => setAudioVolume p w
  | none => none

/-- `_toggleAudioVolume()` (lines 252–255): mute when
`this._currentAudio.volume > 0`, otherwise unmute. -/
def toggleAudioVolume (p : Player) : Option Player :=
  p.currentAudio.bind fun a =>
    if 0 < a.volume then mute p else unmute p

/-- `_toggleAudioPlayback()` (lines 297–302): play when the current handle is
paused, otherwise pause it. -/
def toggleAudioPlayback (p : Player) : Option Player :=
  p.currentAudio.bind fun a =>
    if a.paused then playAudio p else pauseAudio p

/-- The `if (this._currentAudio) this._pauseAudio();` step of
`setCurrentAudio` (line 195). -/
def pauseIfCurrent (p : Player) : Player :=
  if p.currentAudio.isSome then (pauseAudio p).getD p else p

/-- `setCurrentAudio(index)` (lines 191–221).  Reads
`audioSrcFromSrcs = this._options.srcs[index]` (no side effect), pauses the
current handle if one exists, resolves the entry to a source (string form or
`.audio` field — on an undefined entry the `.audio` read throws, returned as
`Except.error` carrying the state at the throw point), installs a fresh
`Audio` handle bound to the source, records `currentIndex = index`, and
applies `_setAudioVolume(75)` to the new handle (which exists, so the `getD`
default is never taken).  The three listeners attached to the new handle
(`timeupdate`, `loadeddata`, `loadedmetadata`) are always the same closures;
the `loadeddata` one is modelled behaviourally by `fireLoadedData`, and the
other two only write to scrub-bar UI attributes, which no claim mentions. -/
def setCurrentAudio (p : Player) (index : Int) : Except Player Player :=
  match srcsGet p.options.srcs index with
  | none => Except.error (pauseIfCurrent p)
  | some t =>
      let p2 := { pauseIfCurrent p with
                    currentAudio := some (newAudio t.resolveSrc),
                    currentAudioIndex := some index }
      Except.ok ((setAudioVolume p2 75).getD p2)

/-- Firing the `loadeddata` event on the current handle runs the listener
attached in `setCurrentAudio` (lines 208–210):
`if (this._options.autoplay) this._playAudio();`. -/
def fireLoadedData (p : Player) : Player :=
  if p.options.autoplay then (playAudio p).getD p else p

/-- `_skipPrevious()` (lines 278–282): compute `_currentAudioIndex - 1`
(JS `null - 1 = -1`, matching `getD 0`), and call `setCurrentAudio` on it
only when `srcs[previousAudioIndex]` is truthy. -/
def skipPrevious (p : Player) : Except Player Player :=
  let previousAudioIndex := (p.currentAudioIndex.getD 0) - 1
  if entryTruthy (srcsGet p.options.srcs previousAudioIndex) then
    setCurrentAudio p previousAudioIndex
  else Except.ok p

/-- `_skipNext()` (lines 287–292): compute `_currentAudioIndex + 1`
(JS `null + 1 = 1`, matching `getD 0`), and call `setCurrentAudio` on it
only when `srcs[nextAudioIndex]` is truthy. -/
def skipNext (p : Player) : Except Player Player :=
  let nextAudioIndex := (p.currentAudioIndex.getD 0) + 1
  if entryTruthy (srcsGet p.options.srcs nextAudioIndex) then
    setCurrentAudio p nextAudioIndex
  else Except.ok p

/-- Reading the current volume as a 0–100 percentage, the scale `_mute`
reads it on (`this._currentAudio.volume * 100`). -/
def readVolumePercent (p : Player) : Option ℚ :=
  p.currentAudio.map fun a => a.volume * 100

/-- The audible/muted observable tested by `_toggleAudioVolume`: is the
handle volume greater than 0. -/
def audible (a : Audio) : Bool :=
  decide (0 < a.volume)

/-- A valid position in the track list. -/
def ValidIndex (srcs : List Track) (i : Int) : Prop :=
  0 ≤ i ∧ i.toNat < srcs.length

/-- The spec invariant: whenever a current `PlaybackHandle` exists,
`currentIndex` is a valid index into the track sequence. -/
def Inv (p : Player) : Prop :=
  p.currentAudio.isSome = true →
    ∃ i, p.currentAudioIndex = some i ∧ ValidIndex p.options.srcs i

/-! ### Element composer (`RiitimusEmbeddableAudioPlayerElement`) -/

/-- `addEventListener` on the underlying element: DOM semantics ignore a
duplicate registration of the same (event, callback) pair. -/
def domAdd (l : List (String × Nat)) (event : String) (callback : Nat) :
    List (String × Nat) :=
  if (event, callback) ∈ l then l else l ++ [(event, callback)]

/-- `removeEventListener` on the underlying element: removes the matching
registration if present, otherwise a no-op. -/
def domRemove (l : List (String × Nat)) (event : String) (callback : Nat) :
    List (String × Nat) :=
  l.erase (event, callback)

/-- Dispatching `event` on the underlying element invokes, in registration
order, every callback registered for that event. -/
def domDispatch (l : List (String × Nat)) (event : String) : List Nat :=
  (l.filter fun q => q.1 == event).map Prod.snd

/-- `RiitimusEmbeddableAudioPlayerElement` (lines 25–113), restricted to its
event-listener state: `domListeners` is the underlying `htmlElement`'s
registered listener list, `eventListeners` the `_eventListeners` bookkeeping
array. -/
structure EAElement where
  domListeners : List (String × Nat)
  eventListeners : List (String × Nat)
deriving DecidableEq, Repr

/-- A freshly constructed element: no listeners registered or recorded. -/
def EAElement.mkNew : EAElement :=
  { domListeners := [], eventListeners := [] }

/-- `on(event, callback)` (lines 106–112): push onto `_eventListeners`, then
`addEventListener` on the underlying element. -/
def EAElement.on (el : EAElement) (event : String) (callback : Nat) :
    EAElement :=
  { el with
    eventListeners := el.eventListeners ++ [(event, callback)],
    domListeners := domAdd el.domListeners event callback }

/-- `removeEventListeners()` (lines 58–62): for each recorded entry, call
`removeEventListener` on the underlying element.  Note `_eventListeners`
itself is not cleared. -/
def EAElement.removeEventListeners (el : EAElement) : EAElement :=
  { el with
    domListeners :=
      el.eventListeners.foldl (fun d q => domRemove d q.1 q.2)
        el.domListeners }

/-- A fresh element after an arbitrary sequence of `on` calls. -/
def runOns (calls : List (String × Nat)) : EAElement :=
  calls.foldl (fun el q => el.on q.1 q.2) EAElement.mkNew

/-- The bookkeeping invariant of an element: the DOM listener list is
duplicate-free and every DOM registration is recorded in
`_eventListeners`. -/
def GoodEl (el : EAElement) : Prop :=
  el.domListeners.Nodup ∧ ∀ q ∈ el.domListeners, q ∈ el.eventListeners

/-! ### Concrete example states used by the witnesses and counterexamples -/

/-- A two-track player configuration. -/
def exOptions : PlayerOptions :=
  { autoplay := false, srcs := [Track.bare "a.mp3", Track.bare "b.mp3"] }

/-- A freshly constructed two-track player. -/
def exPlayer : Player := mkPlayer exOptions

/-- `exPlayer` after `setCurrentAudio(0)`. -/
def exPlayer0 : Player := (setCurrentAudio exPlayer 0).toOption.getD exPlayer

/-- The handle installed by `setCurrentAudio(0)` on `exPlayer`. -/
def exHandle : Audio :=
  { src := "a.mp3", volume := 75 / 100, paused := true, currentTime := 0 }

/-- `exPlayer0` after the volume is changed to 40%. -/
def exPlayer40 : Player := (setAudioVolume exPlayer0 40).getD exPlayer0

/-- `exPlayer40` after `setCurrentAudio(1)`. -/
def exPlayer40Next : Player :=
  (setCurrentAudio exPlayer40 1).toOption.getD exPlayer40

/-- `exPlayer0` after `_skipNext()`. -/
def exPlayerSkip : Player := (skipNext exPlayer0).toOption.getD exPlayer0

/-- A configuration whose second track is the empty string. -/
def exEmptyOptions : PlayerOptions :=
  { autoplay := false, srcs := [Track.bare "a.mp3", Track.bare ""] }

/-- A player on track 0 of `exEmptyOptions`. -/
def exEmptyPlayer : Player :=
  (setCurrentAudio (mkPlayer exEmptyOptions) 0).toOption.getD
    (mkPlayer exEmptyOptions)

/-- A configuration with empty-string tracks on both sides of track 1. -/
def exMidOptions : PlayerOptions :=
  { autoplay := false,
    srcs := [Track.bare "", Track.bare "x.mp3", Track.bare ""] }

/-- A player on track 1 of `exMidOptions`. -/
def exMidPlayer : Player :=
  (setCurrentAudio (mkPlayer exMidOptions) 1).toOption.getD
    (mkPlayer exMidOptions)

/-- A single-track configuration with autoplay enabled. -/
def exAutoOptions : PlayerOptions :=
  { autoplay := true, srcs := [Track.bare "a.mp3"] }

/-- An autoplay player after `setCurrentAudio(0)`. -/
def exAutoPlayer0 : Player :=
  (setCurrentAudio (mkPlayer exAutoOptions) 0).toOption.getD
    (mkPlayer exAutoOptions)

/-! ### Characterization lemmas for the controller operations -/

/-- `pauseIfCurrent` just sets the paused flag of the current handle when one
exists. -/
theorem pauseIfCurrent_eq (p : Player) :
    pauseIfCurrent p =
      { p with currentAudio := p.currentAudio.map fun a => { a with paused := true } } := by
  obtain ⟨opts, cur, idx, lastv⟩ := p
  cases cur <;> rfl

/-- Closed form of a successful `setCurrentAudio`: the old handle is replaced
outright by a fresh handle bound to the resolved source with the applied 75%
volume, and the index is recorded; options and `_lastAudioVolume` are
untouched. -/
theorem setCurrentAudio_some {p : Player} {i : Int} {t : Track}
    (h : srcsGet p.options.srcs i = some t) :
    setCurrentAudio p i = Except.ok
      { p with
          currentAudio := some { src := t.resolveSrc, volume := 75 / 100,
                                 paused := true, currentTime := 0 },
          currentAudioIndex := some i } := by
  obtain ⟨opts, cur, idx, lastv⟩ := p
  simp only [setCurrentAudio, h, setAudioVolume, newAudio, pauseIfCurrent_eq]
  cases cur <;> rfl

/-- A failing `setCurrentAudio` (undefined entry) errors with the state at the
throw point: the current handle paused, nothing else changed. -/
theorem setCurrentAudio_none {p : Player} {i : Int}
    (h : srcsGet p.options.srcs i = none) :
    setCurrentAudio p i = Except.error (pauseIfCurrent p) := by
  simp only [setCurrentAudio, h]

/-- Inversion of a successful `setCurrentAudio`. -/
theorem setCurrentAudio_ok {p q : Player} {i : Int}
    (h : setCurrentAudio p i = Except.ok q) :
    ∃ t, srcsGet p.options.srcs i = some t ∧
      q = { p with
              currentAudio := some { src := t.resolveSrc, volume := 75 / 100,
                                     paused := true, currentTime := 0 },
              currentAudioIndex := some i } := by
  cases hs : srcsGet p.options.srcs i with
  | none => rw [setCurrentAudio_none hs] at h; cases h
  | some t =>
      rw [setCurrentAudio_some hs] at h
      injection h with h2
      exact ⟨t, rfl, h2.symm⟩

/-- A defined entry of `srcsGet` witnesses a valid position. -/
theorem srcsGet_some_valid {srcs : List Track} {i : Int} {t : Track}
    (h : srcsGet srcs i = some t) : ValidIndex srcs i := by
  unfold srcsGet at h
  split at h
  · next h0 => exact ⟨h0, (List.getElem?_eq_some_iff.1 h).1⟩
  · cases h

/-- A valid position yields the corresponding list entry. -/
theorem srcsGet_of_valid {srcs : List Track} {i : Int} (h0 : 0 ≤ i)
    (h1 : i.toNat < srcs.length) :
    srcsGet srcs i = some (srcs.get ⟨i.toNat, h1⟩) := by
  unfold srcsGet
  rw [if_pos h0, List.getElem?_eq_getElem h1, List.get_eq_getElem]

/-- A truthy entry is in particular a defined entry. -/
theorem entryTruthy_isSome {o : Option Track} (h : entryTruthy o = true) :
    ∃ t, o = some t := by
  cases o with
  | none => cases h
  | some t => exact ⟨t, rfl⟩

theorem setAudioVolume_some {p : Player} {a : Audio}
    (h : p.currentAudio = some a) (v : ℚ) :
    setAudioVolume p v =
      some { p with currentAudio := some { a with volume := v / 100 } } := by
  simp only [setAudioVolume, h]
  rfl

theorem playAudio_some {p : Player} {a : Audio} (h : p.currentAudio = some a) :
    playAudio p =
      some { p with currentAudio := some { a with paused := false } } := by
  simp only [playAudio, h]
  rfl

theorem pauseAudio_some {p : Player} {a : Audio} (h : p.currentAudio = some a) :
    pauseAudio p =
      some { p with currentAudio := some { a with paused := true } } := by
  simp only [pauseAudio, h]
  rfl

theorem setAudioCurrentTime_some {p : Player} {a : Audio}
    (h : p.currentAudio = some a) (second : ℚ) :
    setAudioCurrentTime p second =
      some { p with currentAudio := some { a with currentTime := second } } := by
  simp only [setAudioCurrentTime, h]
  rfl

theorem mute_some {p : Player} {a : Audio} (h : p.currentAudio = some a) :
    mute p = some { p with
                      currentAudio := some { a with volume := 0 },
                      lastAudioVolume := some (a.volume * 100) } := by
  simp only [mute, h, setAudioVolume, zero_div]
  rfl

theorem unmute_some {p : Player} {a : Audio} {w : ℚ}
    (ha : p.currentAudio = some a) (hw : p.lastAudioVolume = some w) :
    unmute p =
      some { p with currentAudio := some { a with volume := w / 100 } } := by
  simp only [unmute, hw, setAudioVolume, ha]
  rfl

/-- `Inv` transports along an operation that keeps the track list, the index
and handle existence. -/
theorem inv_transport {p q : Player} (hInv : Inv p)
    (hs : q.options.srcs = p.options.srcs)
    (hi : q.currentAudioIndex = p.currentAudioIndex)
    (hc : q.currentAudio.isSome = true → p.currentAudio.isSome = true) :
    Inv q := by
  intro h
  obtain ⟨i, h1, h2⟩ := hInv (hc h)
  rw [hi, hs]
  exact ⟨i, h1, h2⟩

/-! ### Composer lemmas -/

theorem goodEl_on {el : EAElement} (h : GoodEl el) (event : String)
    (callback : Nat) : GoodEl (el.on event callback) := by
  obtain ⟨hn, hm⟩ := h
  unfold GoodEl EAElement.on domAdd
  by_cases hmem : (event, callback) ∈ el.domListeners
  · simp only [if_pos hmem]
    exact ⟨hn, fun q hq => List.mem_append_left _ (hm q hq)⟩
  · simp only [if_neg hmem]
    refine ⟨List.Nodup.append hn (List.nodup_singleton _) ?_, ?_⟩
    · intro q hq hq2
      rw [List.mem_singleton] at hq2
      exact hmem (hq2 ▸ hq)
    · intro q hq
      rcases List.mem_append.1 hq with h1 | h1
      · exact List.mem_append_left _ (hm q h1)
      · exact List.mem_append_right _ h1

theorem goodEl_mkNew : GoodEl EAElement.mkNew :=
  ⟨List.nodup_nil, by intro q hq; cases hq⟩

theorem runOns_good (calls : List (String × Nat)) : GoodEl (runOns calls) := by
  suffices h : ∀ el, GoodEl el →
      GoodEl (calls.foldl (fun el q => el.on q.1 q.2) el) from
    h EAElement.mkNew goodEl_mkNew
  induction calls with
  | nil => intro el h; exact h
  | cons c rest ih => intro el h; exact ih _ (goodEl_on h c.1 c.2)

/-- Counting after folding `removeEventListener` over a recorded list:
each recorded entry removes one matching registration if any is left. -/
theorem count_foldl_domRemove (rec : List (String × Nat)) :
    ∀ (d : List (String × Nat)) (q : String × Nat),
      (rec.foldl (fun d x => domRemove d x.1 x.2) d).count q =
        d.count q - rec.count q := by
  induction rec with
  | nil => intro d q; simp
  | cons x rest ih =>
      intro d q
      simp only [List.foldl_cons]
      rw [ih]
      have hx : domRemove d x.1 x.2 = d.erase x := by
        simp [domRemove]
      rw [hx, List.count_erase, List.count_cons]
      by_cases hxq : x = q
      · subst hxq; simp; omega
      · have h1 : (x == q) = false := by simpa using hxq
        have h2 : (q == x) = false := by simpa using Ne.symm hxq
        simp [h1, h2]

/-- In a duplicate-free list every element is counted at most once. -/
theorem count_le_one_of_nodup {l : List (String × Nat)} (h : l.Nodup)
    (q : String × Nat) : l.count q ≤ 1 := by
  induction l with
  | nil => simp
  | cons x rest ih =>
      rw [List.count_cons]
      rcases List.nodup_cons.1 h with ⟨hx, hrest⟩
      by_cases hq : q = x
      · subst hq
        have h0 : rest.count q = 0 := List.count_eq_zero_of_not_mem hx
        simp [h0]
      · have hne : x ≠ q := fun hh => hq hh.symm
        simpa [hq, hne] using ih hrest

/-- Folding `removeEventListener` over a list covering every registration of a
duplicate-free DOM listener list empties it. -/
theorem foldl_domRemove_eq_nil {rec d : List (String × Nat)}
    (hn : d.Nodup) (hsub : ∀ q ∈ d, q ∈ rec) :
    rec.foldl (fun d x => domRemove d x.1 x.2) d = [] := by
  rw [List.eq_nil_iff_forall_not_mem]
  intro q hq
  have hcount := count_foldl_domRemove rec d q
  have h1 : 0 < (rec.foldl (fun d x => domRemove d x.1 x.2) d).count q :=
    List.count_pos_iff.2 hq
  have hqd : q ∈ d := by
    refine List.count_pos_iff.1 ?_
    omega
  have hr1 : 0 < rec.count q := List.count_pos_iff.2 (hsub q hqd)
  have hd1 : d.count q ≤ 1 := count_le_one_of_nodup hn q
  omega

/-- Folding `removeEventListener` over an already-empty DOM listener list is a
no-op. -/
theorem foldl_domRemove_nil (rec : List (String × Nat)) :
    rec.foldl (fun d x => domRemove d x.1 x.2) [] = [] := by
  induction rec with
  | nil => rfl
  | cons x rest ih => simpa [domRemove] using ih

/-- Positivity of a percent scaled down by 100. -/
theorem div100_pos_iff (w : ℚ) : 0 < w / 100 ↔ 0 < w := by
  rw [div_pos_iff]
  norm_num

/-- `Inv` is preserved by any update that replaces the handle by another
handle (and possibly `_lastAudioVolume`). -/
theorem inv_update {p : Player} {a b : Audio} {lv : Option ℚ} (hInv : Inv p)
    (ha : p.currentAudio = some a) :
    Inv { p with currentAudio := some b, lastAudioVolume := lv } := by
  intro _
  obtain ⟨i, h1, h2⟩ := hInv (by simp [ha])
  exact ⟨i, h1, h2⟩

/-- `_toggleAudioVolume` on an audible handle mutes. -/
theorem toggleAudioVolume_of_audible {p : Player} {a : Audio}
    (ha : p.currentAudio = some a) (hv : 0 < a.volume) :
    toggleAudioVolume p
      = some { p with currentAudio := some { a with volume := 0 },
                      lastAudioVolume := some (a.volume * 100) } := by
  have h := mute_some ha
  simp [toggleAudioVolume, ha, hv, h]

/-- `_toggleAudioVolume` on a non-audible handle with a stored previous
volume unmutes. -/
theorem toggleAudioVolume_of_muted {p : Player} {a : Audio} {w : ℚ}
    (ha : p.currentAudio = some a) (hv : ¬ 0 < a.volume)
    (hw : p.lastAudioVolume = some w) :
    toggleAudioVolume p
      = some { p with currentAudio := some { a with volume := w / 100 } } := by
  have h := unmute_some ha hw
  simp [toggleAudioVolume, ha, hv, h]

/-! ### Claim theorems -/

/-- C8: on a node carrying any set of listeners registered through
`on(event, callback)`, one `removeEventListeners()` call detaches every one
of them — the DOM listener list becomes empty, so simulating any
previously-bound event triggers no callback — and a second
`removeEventListeners()` call is safe and a no-op (the state is
unchanged). -/
theorem removeEventListeners_detaches_all (calls : List (String × Nat)) :
    ((runOns calls).removeEventListeners).domListeners = [] ∧
    (∀ event,
      domDispatch ((runOns calls).removeEventListeners).domListeners event
        = []) ∧
    ((runOns calls).removeEventListeners).removeEventListeners =
      (runOns calls).removeEventListeners := by
  obtain ⟨hn, hsub⟩ := runOns_good calls
  have hnil : ((runOns calls).removeEventListeners).domListeners = [] := by
    show (runOns calls).eventListeners.foldl (fun d q => domRemove d q.1 q.2)
        (runOns calls).domListeners = []
    exact foldl_domRemove_eq_nil hn hsub
  refine ⟨hnil, ?_, ?_⟩
  · intro event
    rw [hnil]
    rfl
  · rcases h2 : (runOns calls).removeEventListeners with ⟨dls, els⟩
    rw [h2] at hnil
    change dls = [] at hnil
    subst hnil
    show EAElement.mk (List.foldl (fun d q => domRemove d q.1 q.2) [] els) els
        = EAElement.mk [] els
    rw [foldl_domRemove_nil]

/-- C4: for every valid index `i`, `setCurrentAudio(i)` succeeds, records
`currentIndex = i`, and installs a freshly created handle bound to the
resolved source of Track `i` (paused, at time 0, with the applied 75%
volume). -/
theorem setCurrentAudio_sets_index_and_source (p : Player) (i : Int)
    (h0 : 0 ≤ i) (h1 : i.toNat < p.options.srcs.length) :
    ∃ q, setCurrentAudio p i = Except.ok q ∧ q.currentAudioIndex = some i ∧
      q.currentAudio = some
        { src := (p.options.srcs.get ⟨i.toNat, h1⟩).resolveSrc,
          volume := 75 / 100, paused := true, currentTime := 0 } := by
  have hs := srcsGet_of_valid h0 h1
  exact ⟨_, setCurrentAudio_some hs, rfl, rfl⟩

/-- Witness for C4 at `exPlayer`, index 0. -/
theorem setCurrentAudio_sets_index_and_source_witness :
    ∃ q, setCurrentAudio exPlayer 0 = Except.ok q ∧
      q.currentAudioIndex = some 0 ∧
      q.currentAudio = some
        { src := (exPlayer.options.srcs.get
            ⟨(0 : Int).toNat, by decide⟩).resolveSrc,
          volume := 75 / 100, paused := true, currentTime := 0 } :=
  setCurrentAudio_sets_index_and_source exPlayer 0 (by decide) (by decide)

/-- Counterexample to C1: with the volume at 40% before the handle swap,
`setCurrentAudio(1)` gives the new handle volume 75%, not the pre-swap
current volume — the current volume is not re-applied. -/
theorem setCurrentAudio_volume_not_reapplied_cex :
    readVolumePercent exPlayer40 = some 40 ∧
    (setCurrentAudio exPlayer40 1).toOption = some exPlayer40Next ∧
    readVolumePercent exPlayer40Next = some 75 ∧ (75 : ℚ) ≠ 40 := by
  refine ⟨?_, rfl, ?_, by norm_num⟩
  · have h : readVolumePercent exPlayer40 = some ((40 : ℚ) / 100 * 100) := rfl
    rw [h]
    norm_num
  · have h : readVolumePercent exPlayer40Next
        = some ((75 : ℚ) / 100 * 100) := rfl
    rw [h]
    norm_num

/-- C1 amended: after every successful `setCurrentAudio(i)`, the volume
applied to the newly created handle is the constant default 75%, irrespective
of the volume in effect before the handle swap. -/
theorem setCurrentAudio_applies_constant_75 (p : Player) (i : Int)
    (q : Player) (h : setCurrentAudio p i = Except.ok q) :
    readVolumePercent q = some 75 := by
  obtain ⟨t, hs, hq⟩ := setCurrentAudio_ok h
  subst hq
  simp only [readVolumePercent, Option.map_some']
  norm_num

/-- Witness for the amended C1 at `exPlayer40`, index 1. -/
theorem setCurrentAudio_applies_constant_75_witness :
    readVolumePercent exPlayer40Next = some 75 :=
  setCurrentAudio_applies_constant_75 exPlayer40 1 exPlayer40Next rfl

/-- C9: calling `setCurrentAudio` on an undefined entry while a current
handle exists pauses the old handle and then throws reading `.audio` of
undefined, leaving `currentIndex` and the handle otherwise as they were —
the failing call is not atomic (the pause side effect survives, no new
handle is installed). -/
theorem setCurrentAudio_invalid_pauses_then_throws (p : Player) (a : Audio)
    (i : Int) (ha : p.currentAudio = some a)
    (hi : srcsGet p.options.srcs i = none) :
    setCurrentAudio p i =
      Except.error
        { p with currentAudio := some { a with paused := true } } := by
  rw [setCurrentAudio_none hi, pauseIfCurrent_eq, ha]
  rfl

/-- Witness for C9 at `exPlayer0`, invalid index 5. -/
theorem setCurrentAudio_invalid_pauses_then_throws_witness :
    setCurrentAudio exPlayer0 5 =
      Except.error
        { exPlayer0 with
            currentAudio := some { exHandle with paused := true } } :=
  setCurrentAudio_invalid_pauses_then_throws exPlayer0 exHandle 5 rfl rfl

/-- Counterexample to C3: a Track (the empty string) exists at position
`currentIndex + 1`, yet `skipNext` is a no-op that leaves the whole state
unchanged, so "calls setCurrentAudio with the new index if and only if a
Track exists at that position" fails. -/
theorem skip_iff_track_exists_cex :
    exEmptyPlayer.currentAudioIndex = some 0 ∧
    (srcsGet exEmptyPlayer.options.srcs 1).isSome = true ∧
    skipNext exEmptyPlayer = Except.ok exEmptyPlayer :=
  ⟨rfl, rfl, rfl⟩

/-- C3 amended: `skipNext` / `skipPrevious` compute `currentIndex + 1` /
`currentIndex - 1` and call `setCurrentAudio` with the new index exactly when
the srcs entry at that position is truthy (a non-empty bare string, or a
structured entry); otherwise the operation is a no-op leaving the entire
controller state unchanged (in particular at the last index / index 0:
no wraparound). -/
theorem skip_iff_entry_truthy (p : Player) :
    (entryTruthy (srcsGet p.options.srcs ((p.currentAudioIndex.getD 0) + 1))
        = true →
      skipNext p = setCurrentAudio p ((p.currentAudioIndex.getD 0) + 1) ∧
      ∃ q, skipNext p = Except.ok q ∧
        q.currentAudioIndex = some ((p.currentAudioIndex.getD 0) + 1)) ∧
    (entryTruthy (srcsGet p.options.srcs ((p.currentAudioIndex.getD 0) + 1))
        = false →
      skipNext p = Except.ok p) ∧
    (entryTruthy (srcsGet p.options.srcs ((p.currentAudioIndex.getD 0) - 1))
        = true →
      skipPrevious p = setCurrentAudio p ((p.currentAudioIndex.getD 0) - 1) ∧
      ∃ q, skipPrevious p = Except.ok q ∧
        q.currentAudioIndex = some ((p.currentAudioIndex.getD 0) - 1)) ∧
    (entryTruthy (srcsGet p.options.srcs ((p.currentAudioIndex.getD 0) - 1))
        = false →
      skipPrevious p = Except.ok p) := by
  refine ⟨?_, ?_, ?_, ?_⟩
  · intro ht
    obtain ⟨t, hsome⟩ := entryTruthy_isSome ht
    have heq : skipNext p
        = setCurrentAudio p ((p.currentAudioIndex.getD 0) + 1) := by
      simp [skipNext, ht]
    refine ⟨heq, ?_⟩
    rw [heq, setCurrentAudio_some hsome]
    exact ⟨_, rfl, rfl⟩
  · intro hf
    simp [skipNext, hf]
  · intro ht
    obtain ⟨t, hsome⟩ := entryTruthy_isSome ht
    have heq : skipPrevious p
        = setCurrentAudio p ((p.currentAudioIndex.getD 0) - 1) := by
      simp [skipPrevious, ht]
    refine ⟨heq, ?_⟩
    rw [heq, setCurrentAudio_some hsome]
    exact ⟨_, rfl, rfl⟩
  · intro hf
    simp [skipPrevious, hf]

/-- Witness for the amended C3 at `exPlayer0`: skipping forward from track 0
calls `setCurrentAudio(1)`; skipping backward (entry at -1 undefined, hence
falsy) is a no-op. -/
theorem skip_iff_entry_truthy_witness :
    (skipNext exPlayer0 = setCurrentAudio exPlayer0 1 ∧
      ∃ q, skipNext exPlayer0 = Except.ok q ∧
        q.currentAudioIndex = some 1) ∧
    skipPrevious exPlayer0 = Except.ok exPlayer0 :=
  ⟨(skip_iff_entry_truthy exPlayer0).1 rfl,
   (skip_iff_entry_truthy exPlayer0).2.2.2 rfl⟩

/-- C10: the skip guards test JS truthiness of the entry, so an empty-string
track at `currentIndex + 1` / `currentIndex - 1` makes the skip a no-op even
though a track is present at that position. -/
theorem skip_empty_string_entry_noop (p : Player) (i : Int)
    (hidx : p.currentAudioIndex = some i) :
    (srcsGet p.options.srcs (i + 1) = some (Track.bare "") →
      skipNext p = Except.ok p) ∧
    (srcsGet p.options.srcs (i - 1) = some (Track.bare "") →
      skipPrevious p = Except.ok p) := by
  constructor
  · intro h
    simp [skipNext, hidx, h, entryTruthy]
  · intro h
    simp [skipPrevious, hidx, h, entryTruthy]

/-- Witness for C10 at `exMidPlayer` (track 1 with empty-string tracks on
both sides): both skips are no-ops. -/
theorem skip_empty_string_entry_noop_witness :
    skipNext exMidPlayer = Except.ok exMidPlayer ∧
    skipPrevious exMidPlayer = Except.ok exMidPlayer :=
  ⟨(skip_empty_string_entry_noop exMidPlayer 1 rfl).1 rfl,
   (skip_empty_string_entry_noop exMidPlayer 1 rfl).2 rfl⟩

/-- C7: after `setCurrentAudio(0)`, firing the data-ready (`loadeddata`)
event on the new handle starts playback exactly when `autoplay` was
configured - with no `togglePlayback` call involved; without autoplay the
event changes nothing and the handle stays paused. -/
theorem autoplay_starts_playback_on_loadeddata (p q : Player)
    (h : setCurrentAudio p 0 = Except.ok q) :
    (p.options.autoplay = true →
      (fireLoadedData q).currentAudio.map Audio.paused = some false) ∧
    (p.options.autoplay = false →
      fireLoadedData q = q ∧
      q.currentAudio.map Audio.paused = some true) := by
  obtain ⟨t, hs, hq⟩ := setCurrentAudio_ok h
  subst hq
  constructor
  · intro hauto
    simp [fireLoadedData, hauto, playAudio]
  · intro hauto
    exact ⟨by simp [fireLoadedData, hauto], rfl⟩

/-- Witness for C7: with `autoplay = true`, the loadeddata event leaves the
handle un-paused. -/
theorem autoplay_starts_playback_on_loadeddata_witness :
    (fireLoadedData exAutoPlayer0).currentAudio.map Audio.paused
      = some false :=
  (autoplay_starts_playback_on_loadeddata (mkPlayer exAutoOptions)
    exAutoPlayer0 rfl).1 rfl

/-- C2: for every volume v in [0,100] (on a state with a current handle),
setting the volume to v, then `mute()`, reads volume 0, and a following
`unmute()` restores the volume reading to exactly v. -/
theorem mute_unmute_roundtrip (p : Player) (v : ℚ)
    (hp : p.currentAudio.isSome = true) (h0 : 0 ≤ v) (h1 : v ≤ 100) :
    ∃ p1 p2 p3, setAudioVolume p v = some p1 ∧ mute p1 = some p2 ∧
      unmute p2 = some p3 ∧ readVolumePercent p2 = some 0 ∧
      readVolumePercent p3 = some v := by
  obtain ⟨a, ha⟩ := Option.isSome_iff_exists.1 hp
  refine ⟨_, _, _, setAudioVolume_some ha v, mute_some rfl,
    unmute_some rfl rfl, ?_, ?_⟩
  · show some ((0 : ℚ) * 100) = some 0
    norm_num
  · show some (v / 100 * 100 / 100 * 100) = some v
    have hv : v / 100 * 100 / 100 * 100 = v := by
      field_simp
    rw [hv]

/-- Witness for C2 at `exPlayer0` with v = 40 (the spec scenario). -/
theorem mute_unmute_roundtrip_witness :
    ∃ p1 p2 p3, setAudioVolume exPlayer0 40 = some p1 ∧ mute p1 = some p2 ∧
      unmute p2 = some p3 ∧ readVolumePercent p2 = some 0 ∧
      readVolumePercent p3 = some 40 :=
  mute_unmute_roundtrip exPlayer0 40 rfl (by norm_num) (by norm_num)

/-- C6: from every state with a current handle that is audible, or muted
with a stored previous volume, calling `toggleMute()` twice with no volume
change in between succeeds and returns the controller to the original
audible/muted state. -/
theorem toggleMute_twice_restores_state (p : Player) (a : Audio)
    (ha : p.currentAudio = some a)
    (hm : 0 < a.volume ∨ p.lastAudioVolume.isSome = true) :
    ∃ q, (toggleAudioVolume p).bind toggleAudioVolume = some q ∧
      q.currentAudio.map audible = some (audible a) := by
  by_cases hv : 0 < a.volume
  · rw [toggleAudioVolume_of_audible ha hv]
    have h2 : toggleAudioVolume
        { p with currentAudio := some { a with volume := 0 },
                 lastAudioVolume := some (a.volume * 100) }
        = some { p with
                   currentAudio := some { a with volume := a.volume * 100 / 100 },
                   lastAudioVolume := some (a.volume * 100) } :=
      toggleAudioVolume_of_muted (a := { a with volume := 0 }) rfl
        (by norm_num) rfl
    rw [Option.some_bind, h2]
    refine ⟨_, rfl, ?_⟩
    simp only [Option.map_some']
    have hvol : a.volume * 100 / 100 = a.volume := by field_simp
    simp [audible, hvol]
  · have hw := hm.resolve_left hv
    obtain ⟨w, hw2⟩ := Option.isSome_iff_exists.1 hw
    rw [toggleAudioVolume_of_muted ha hv hw2]
    by_cases hw3 : 0 < w
    · have hv2 : 0 < ({ a with volume := w / 100 } : Audio).volume :=
        (div100_pos_iff w).2 hw3
      have h2 := toggleAudioVolume_of_audible
        (p := { p with currentAudio := some { a with volume := w / 100 } })
        rfl hv2
      rw [Option.some_bind, h2]
      refine ⟨_, rfl, ?_⟩
      simp only [Option.map_some']
      simp [audible, hv]
    · have hv2 : ¬ 0 < ({ a with volume := w / 100 } : Audio).volume :=
        fun hcon => hw3 ((div100_pos_iff w).1 hcon)
      have h2 := toggleAudioVolume_of_muted
        (p := { p with currentAudio := some { a with volume := w / 100 } })
        rfl hv2 hw2
      rw [Option.some_bind, h2]
      refine ⟨_, rfl, ?_⟩
      simp only [Option.map_some']
      have h4 : ¬ (0 < w / (100 : ℚ)) := hv2
      simp [audible, hv, h4]

/-- Witness for C6 at the audible `exPlayer0`. -/
theorem toggleMute_twice_restores_state_witness :
    ∃ q, (toggleAudioVolume exPlayer0).bind toggleAudioVolume = some q ∧
      q.currentAudio.map audible = some (audible exHandle) :=
  toggleMute_twice_restores_state exPlayer0 exHandle rfl
    (Or.inl (by norm_num [exHandle]))

/-- C5: every controller operation preserves the invariant that whenever a
current handle exists, `currentIndex` is a valid index into the track
sequence (operations invoked under their preconditions: a dereferencing
operation that would throw yields no resulting state, and a successful
`setCurrentAudio` presupposes a defined entry). -/
theorem controller_ops_preserve_inv (p : Player) (hInv : Inv p) :
    (∀ i q, setCurrentAudio p i = Except.ok q → Inv q) ∧
    (∀ q, skipNext p = Except.ok q → Inv q) ∧
    (∀ q, skipPrevious p = Except.ok q → Inv q) ∧
    (∀ v q, setAudioVolume p v = some q → Inv q) ∧
    (∀ s q, setAudioCurrentTime p s = some q → Inv q) ∧
    (∀ q, mute p = some q → Inv q) ∧
    (∀ q, unmute p = some q → Inv q) ∧
    (∀ q, toggleAudioVolume p = some q → Inv q) ∧
    (∀ q, playAudio p = some q → Inv q) ∧
    (∀ q, pauseAudio p = some q → Inv q) ∧
    (∀ q, toggleAudioPlayback p = some q → Inv q) ∧
    Inv (fireLoadedData p) := by
  have hset : ∀ i q, setCurrentAudio p i = Except.ok q → Inv q := by
    intro i q h
    obtain ⟨t, hs, hq⟩ := setCurrentAudio_ok h
    subst hq
    intro _
    obtain ⟨h0, h1⟩ := srcsGet_some_valid hs
    exact ⟨i, rfl, h0, h1⟩
  have hvol : ∀ v q, setAudioVolume p v = some q → Inv q := by
    intro v q h
    cases ha : p.currentAudio with
    | none => simp [setAudioVolume, ha] at h
    | some a =>
        rw [setAudioVolume_some ha] at h
        injection h with h
        subst h
        exact inv_update hInv ha
  have htime : ∀ s q, setAudioCurrentTime p s = some q → Inv q := by
    intro s q h
    cases ha : p.currentAudio with
    | none => simp [setAudioCurrentTime, ha] at h
    | some a =>
        rw [setAudioCurrentTime_some ha] at h
        injection h with h
        subst h
        exact inv_update hInv ha
  have hplay : ∀ q, playAudio p = some q → Inv q := by
    intro q h
    cases ha : p.currentAudio with
    | none => simp [playAudio, ha] at h
    | some a =>
        rw [playAudio_some ha] at h
        injection h with h
        subst h
        exact inv_update hInv ha
  have hpause : ∀ q, pauseAudio p = some q → Inv q := by
    intro q h
    cases ha : p.currentAudio with
    | none => simp [pauseAudio, ha] at h
    | some a =>
        rw [pauseAudio_some ha] at h
        injection h with h
        subst h
        exact inv_update hInv ha
  have hmute : ∀ q, mute p = some q → Inv q := by
    intro q h
    cases ha : p.currentAudio with
    | none => simp [mute, ha] at h
    | some a =>
        rw [mute_some ha] at h
        injection h with h
        subst h
        exact inv_update hInv ha
  have hunmute : ∀ q, unmute p = some q → Inv q := by
    intro q h
    cases hw : p.lastAudioVolume with
    | none => simp [unmute, hw] at h
    | some w =>
        cases ha : p.currentAudio with
        | none => simp [unmute, hw, setAudioVolume, ha] at h
        | some a =>
            rw [unmute_some ha hw] at h
            injection h with h
            subst h
            exact inv_update hInv ha
  have htogvol : ∀ q, toggleAudioVolume p = some q → Inv q := by
    intro q h
    cases ha : p.currentAudio with
    | none => simp [toggleAudioVolume, ha] at h
    | some a =>
        have heq : toggleAudioVolume p
            = if 0 < a.volume then mute p else unmute p := by
          simp [toggleAudioVolume, ha]
        rw [heq] at h
        split at h
        · exact hmute q h
        · exact hunmute q h
  have htogpb : ∀ q, toggleAudioPlayback p = some q → Inv q := by
    intro q h
    cases ha : p.currentAudio with
    | none => simp [toggleAudioPlayback, ha] at h
    | some a =>
        have heq : toggleAudioPlayback p
            = if a.paused then playAudio p else pauseAudio p := by
          simp [toggleAudioPlayback, ha]
        rw [heq] at h
        split at h
        · exact hplay q h
        · exact hpause q h
  have hnext : ∀ q, skipNext p = Except.ok q → Inv q := by
    intro q h
    simp only [skipNext] at h
    split at h
    · exact hset _ _ h
    · injection h with h
      exact h ▸ hInv
  have hprev : ∀ q, skipPrevious p = Except.ok q → Inv q := by
    intro q h
    simp only [skipPrevious] at h
    split at h
    · exact hset _ _ h
    · injection h with h
      exact h ▸ hInv
  have hfld : Inv (fireLoadedData p) := by
    unfold fireLoadedData
    split
    · cases ha : p.currentAudio with
      | none =>
          have h : playAudio p = none := by simp [playAudio, ha]
          rw [h]
          exact hInv
      | some a =>
          rw [playAudio_some ha]
          exact inv_update hInv ha
    · exact hInv
  exact ⟨hset, hnext, hprev, hvol, htime, hmute, hunmute, htogvol, hplay,
    hpause, htogpb, hfld⟩

/-- Witness for C5: skipping forward from `exPlayer0` yields a state whose
index is valid. -/
theorem controller_ops_preserve_inv_witness :
    ∃ i, exPlayerSkip.currentAudioIndex = some i ∧
      ValidIndex exPlayerSkip.options.srcs i :=
  (controller_ops_preserve_inv exPlayer0
      (fun _ => ⟨0, rfl, by decide, by decide⟩)).2.1 exPlayerSkip rfl rfl

end Riitimus
